import Mathlib

/-!
Verification of the CloudLeecher client reconciler
(src/frontend/src/context/AppContext.jsx) against its specification.

The JavaScript reconciler is shallowly embedded: each source function becomes
an executable Lean function over explicit state.  JavaScript numbers reaching
the claims are either integers (modelled as Int, obtained through parseInt) or
the progress ratio, modelled by the inductive JNum distinguishing NaN, signed
infinity and exact rationals; float rounding is not modelled since every claim
about progress concerns only the zero/NaN/infinite cases.  parseInt is modelled
for decimal inputs (the backend serialises integers in decimal; radix
auto-detection for 0x prefixes never arises).
-/

namespace CloudLeecher

/-! ### JavaScript string and number helpers -/

/-- Character-list version of JavaScript String.startsWith. -/
def charsPref : List Char → List Char → Bool
  | [], _ => true
  | _ :: _, [] => false
  | a :: as, b :: bs => a == b && charsPref as bs

/-- JavaScript s.startsWith(p). -/
def jsStartsWith (s p : String) : Bool :=
  charsPref p.toList s.toList

/-- Helper for lastSeg: walk the characters, restarting the accumulator at
each slash, returning the final segment. -/
def lastSegAux : List Char → List Char → List Char
  | [], acc => acc.reverse
  | c :: cs, acc => if c == '/' then lastSegAux cs [] else lastSegAux cs (c :: acc)

/-- JavaScript path.split('/').pop(): the substring after the final slash. -/
def lastSeg (p : String) : String :=
  ⟨lastSegAux p.toList []⟩

/-- JavaScript `a || b` for an optionally-undefined string `a`: undefined and
the empty string are falsy. -/
def jsOrStr (a : Option String) (b : String) : String :=
  match a with
  | none => b
  | some s => if s == "" then b else s

/-- JavaScript `a || null` for an optionally-undefined string `a`. -/
def jsOrNull (a : Option String) : Option String :=
  match a with
  | none => none
  | some s => if s == "" then none else some s

def jsWhitespace (c : Char) : Bool :=
  c == ' ' || c == '\t' || c == '\n' || c == '\r'

def isDigitChar (c : Char) : Bool :=
  '0' ≤ c && c ≤ '9'

def digitsToNatAux : Nat → List Char → Nat
  | acc, [] => acc
  | acc, c :: cs => digitsToNatAux (acc * 10 + (c.toNat - '0'.toNat)) cs

/-- The numeric value of the leading run of decimal digits; none when that
run is empty (parseInt yields NaN). -/
def leadDigits (cs : List Char) : Option Nat :=
  let ds := cs.takeWhile isDigitChar
  if ds.isEmpty then none else some (digitsToNatAux 0 ds)

/-- JavaScript parseInt on a string (decimal): skip whitespace, optional
sign, leading digits; `none` models NaN. -/
def jsParseInt (s : String) : Option Int :=
  let cs := s.toList.dropWhile jsWhitespace
  match cs with
  | '-' :: rest => (leadDigits rest).map (fun n => -(n : Int))
  | '+' :: rest => (leadDigits rest).map (fun n => (n : Int))
  | rest => (leadDigits rest).map (fun n => (n : Int))

/-- parseInt applied to a field that may be absent (parseInt(undefined) is
NaN). -/
def jsParseIntO (o : Option String) : Option Int :=
  o.bind jsParseInt

/-- JavaScript `parseInt(x) || 0`: NaN (and 0 itself) collapse to 0. -/
def orZero (o : Option String) : Int :=
  (jsParseIntO o).getD 0

/-- JavaScript numbers as they appear in the progress computation: NaN,
signed infinities, or an exact value. -/
inductive JNum where
  | nan : JNum
  | inf : Bool → JNum
  | num : Rat → JNum
deriving DecidableEq, Repr

/-- JavaScript division of two parseInt results (NaN propagates; x/0 is NaN
for x = 0 and a signed infinity otherwise). -/
def jDivP : Option Int → Option Int → JNum
  | none, _ => JNum.nan
  | some _, none => JNum.nan
  | some a, some b =>
      if b = 0 then (if a = 0 then JNum.nan else JNum.inf (decide (0 < a)))
      else JNum.num ((a : Rat) / (b : Rat))

/-- Multiplication by the literal 100. -/
def jMul100 : JNum → JNum
  | JNum.nan => JNum.nan
  | JNum.inf s => JNum.inf s
  | JNum.num q => JNum.num (q * 100)

/-- JavaScript `x || 0` on a number: NaN and 0 are falsy. -/
def jsOrZeroNum : JNum → JNum
  | JNum.nan => JNum.num 0
  | JNum.inf s => JNum.inf s
  | JNum.num q => if q = 0 then JNum.num 0 else JNum.num q

/-- `(parseInt(completedLength) / parseInt(totalLength)) * 100 || 0`. -/
def progressOf (completed total : Option String) : JNum :=
  jsOrZeroNum (jMul100 (jDivP (jsParseIntO completed) (jsParseIntO total)))

/-! ### Data model -/

/-- One entry of the polled `/api/status` snapshot.  `firstFilePath` models
`files?.[0]?.path` (none when the files array is absent or empty). -/
structure BackendTask where
  gid : String
  totalLength : Option String
  completedLength : Option String
  downloadSpeed : Option String
  status : String
  firstFilePath : Option String
  numSeeders : Option String
  connections : Option String
  errorCode : Option String
  errorMessage : Option String
  infoHash : Option String
deriving DecidableEq, Repr

/-- A locally persisted task.  `seeds`, `peers` and `infoHash` are optional
because the objects built by addMagnet/addTorrentFile and by the new-task
append never set those fields. -/
structure Task where
  gid : String
  name : String
  size : Int
  completed : Int
  speed : Int
  status : String
  progress : JNum
  errorMessage : Option String
  errorCode : Option String
  seeds : Option Int
  peers : Option Int
  infoHash : Option String
  timestamp : Int
deriving DecidableEq, Repr

/-- The suppression set (ignoredTaskIds) together with the task list. -/
structure ClientState where
  ignored : List String
  tasks : List Task
deriving DecidableEq, Repr

/-! ### The backendTasksMap (an insertion-ordered JavaScript Map) -/

/-- Map.set: replace in place when the key exists, else append. -/
def mapSet (m : List BackendTask) (t : BackendTask) : List BackendTask :=
  if m.any (fun u => u.gid == t.gid) then
    m.map (fun u => if u.gid == t.gid then t else u)
  else m ++ [t]

/-- Building the map from `[...active, ...waiting, ...stopped]`. -/
def buildMap (l : List BackendTask) : List BackendTask :=
  l.foldl mapSet []

/-- Map.get. -/
def mapLookup (m : List BackendTask) (g : String) : Option BackendTask :=
  m.find? (fun u => u.gid == g)

/-- Map.delete. -/
def mapDelete (m : List BackendTask) (g : String) : List BackendTask :=
  m.filter (fun u => !(u.gid == g))

/-- Set membership for the string set ignoredTaskIds. -/
def setMem (s : List String) (g : String) : Bool :=
  s.any (fun x => x == g)

/-- Set.add. -/
def setInsert (s : List String) (g : String) : List String :=
  if setMem s g then s else s ++ [g]

/-! ### The reconciler (updateTasksFromBackend) -/

/-- The follow-up heuristic applied to one candidate snapshot entry:
`gidPrefix || sameInfoHash || (sameName && name not a placeholder)`. -/
def jsFollowCond (lt : Task) (bt : BackendTask) : Bool :=
  let sameName :=
    match bt.firstFilePath with
    | some p => lastSeg p == lt.name
    | none => false
  let sameInfoHash :=
    match bt.infoHash with
    | some h => !(h == "") && lt.infoHash == some h
    | none => false
  let gidExt := jsStartsWith bt.gid lt.gid
  gidExt || sameInfoHash ||
    (sameName && !(lt.name == "Uploading torrent file...") &&
      !(lt.name == "Resolving metadata..."))

/-- The `for (const [newGid, bTask] of backendTasksMap.entries())` scan:
first entry, in map order, satisfying the heuristic. -/
def findFollowUp (lt : Task) : List BackendTask → Option BackendTask
  | [] => none
  | bt :: rest => if jsFollowCond lt bt then some bt else findFollowUp lt rest

/-- Remove the first occurrence of `pat` from a character list (JavaScript
String.replace with a string pattern replaces only the first occurrence). -/
def dropPrefChars : List Char → List Char → Option (List Char)
  | [], s => some s
  | _, [] => none
  | a :: as, b :: bs => if a == b then dropPrefChars as bs else none

def replaceFirstAux (pat : List Char) : List Char → List Char
  | [] => []
  | c :: cs =>
      match dropPrefChars pat (c :: cs) with
      | some rest => rest
      | none => c :: replaceFirstAux pat cs

/-- JavaScript s.replace(pat, "") for a plain string pattern. -/
def replaceFirst (pat s : String) : String :=
  ⟨replaceFirstAux pat.toList s.toList⟩

/-- `if (!newName.startsWith('[Server Removed]')) newName = ...`. -/
def serverRemovedMark (n : String) : String :=
  if jsStartsWith n "[Server Removed]" then n else "[Server Removed] " ++ n

/-- `name: localTask.name.startsWith('[Lost]') ? ... : ...`. -/
def lostMark (n : String) : String :=
  if jsStartsWith n "[Lost]" then n else "[Lost] " ++ n

/-- The `if (backendTask)` branch: copy the server fields over the local
task, with the uploading and removed special cases. -/
def mergeExisting (lt : Task) (bt : BackendTask) (now : Int) : Task :=
  let newName0 := jsOrStr (bt.firstFilePath.map lastSeg) (jsOrStr (some lt.name) "Unknown File")
  let newName1 :=
    if bt.status == "uploading" then "[Finalizing] " ++ replaceFirst "[Finalizing] " newName0
    else newName0
  let newStatus := if bt.status == "removed" then "error" else bt.status
  let newName := if bt.status == "removed" then serverRemovedMark newName1 else newName1
  { lt with
    name := newName
    size := orZero bt.totalLength
    completed := orZero bt.completedLength
    speed := orZero bt.downloadSpeed
    status := newStatus
    progress := progressOf bt.completedLength bt.totalLength
    errorMessage := jsOrNull bt.errorMessage
    errorCode := jsOrNull bt.errorCode
    seeds := some (orZero bt.numSeeders)
    peers := some (orZero bt.connections)
    infoHash := jsOrNull bt.infoHash
    timestamp := now }

/-- The `if (foundFollowUpTask)` branch: adopt the new gid and copy its
fields. -/
def adoptFollowUp (lt : Task) (bt : BackendTask) (now : Int) : Task :=
  { lt with
    gid := bt.gid
    name := jsOrStr (bt.firstFilePath.map lastSeg) lt.name
    size := orZero bt.totalLength
    completed := orZero bt.completedLength
    speed := orZero bt.downloadSpeed
    status := bt.status
    progress := progressOf bt.completedLength bt.totalLength
    errorMessage := jsOrNull bt.errorMessage
    errorCode := jsOrNull bt.errorCode
    seeds := some (orZero bt.numSeeders)
    peers := some (orZero bt.connections)
    infoHash := jsOrNull bt.infoHash
    timestamp := now }

/-- The truly-missing branch: grace period for young active tasks, the
[Lost] error marking for the rest, with the removed status exempted. -/
def graceOrLost (lt : Task) (now : Int) : Task :=
  if now - lt.timestamp < 60000 ∧ lt.status = "active" then lt
  else if lt.status ≠ "removed" then
    { lt with status := "error", name := lostMark lt.name, speed := 0 }
  else lt

/-- One iteration of the reconciliation loop body for a local task,
threading the backendTasksMap (candidates are consumed by Map.delete). -/
def processTask (ig : List String) (now : Int) (m : List BackendTask) (lt : Task) :
    Task × List BackendTask :=
  if setMem ig lt.gid then ({ lt with status := "removed", speed := 0 }, m)
  else
    match mapLookup m lt.gid with
    | some bt => (mergeExisting lt bt now, mapDelete m lt.gid)
    | none =>
        match findFollowUp lt m with
        | some bt => (adoptFollowUp lt bt now, mapDelete m bt.gid)
        | none => (graceOrLost lt now, m)

/-- The full `for (let i = 0; ...)` loop over the local task list. -/
def processTasks (ig : List String) (now : Int) :
    List Task → List BackendTask → List Task × List BackendTask
  | [], m => ([], m)
  | lt :: rest, m =>
      let p := processTask ig now m lt
      let q := processTasks ig now rest p.2
      (p.1 :: q.1, q.2)

/-- The object unshifted for a snapshot entry claimed by no local task.
Note that it carries no seeds, peers, infoHash or error fields. -/
def newTaskOf (bt : BackendTask) (now : Int) : Task :=
  { gid := bt.gid
    name := jsOrStr (bt.firstFilePath.map lastSeg) "Unknown Task"
    size := orZero bt.totalLength
    completed := orZero bt.completedLength
    speed := orZero bt.downloadSpeed
    status := bt.status
    progress := progressOf bt.completedLength bt.totalLength
    errorMessage := none
    errorCode := none
    seeds := none
    peers := none
    infoHash := none
    timestamp := now }

/-- updateTasksFromBackend: build the map, prune the suppression set,
run the merge loop, then unshift the unclaimed non-suppressed entries. -/
def updateTasksFromBackend (st : ClientState)
    (active waiting stopped : List BackendTask) (now : Int) : ClientState :=
  let m0 := buildMap (active ++ waiting ++ stopped)
  let ig1 := st.ignored.filter (fun g => (mapLookup m0 g).isSome)
  let pr := processTasks ig1 now st.tasks m0
  let fresh := (pr.2.filter (fun bt => !(setMem ig1 bt.gid))).map (fun bt => newTaskOf bt now)
  { ignored := ig1, tasks := fresh.reverse ++ pr.1 }

/-! ### The remaining client operations -/

structure PollData where
  active : List BackendTask
  waiting : List BackendTask
  stopped : List BackendTask
deriving DecidableEq, Repr

/-- refreshStatus: a failed or timed-out poll (resp = none) throws before
any state write; a successful one runs the reconciler. -/
def refreshStatus (st : ClientState) (resp : Option PollData) (now : Int) : ClientState :=
  match resp with
  | none => st
  | some d => updateTasksFromBackend st d.active d.waiting d.stopped now

/-- The busy guard of addMagnet/addTorrentFile. -/
def isBlocking (t : Task) : Bool :=
  t.status == "active" || t.status == "waiting" || t.status == "uploading"

/-- The optimistic local task created on a successful add. -/
def freshLocalTask (g nm : String) (now : Int) : Task :=
  { gid := g, name := nm, size := 0, completed := 0, speed := 0,
    status := "active", progress := JNum.num 0, errorMessage := none,
    errorCode := none, seeds := none, peers := none, infoHash := none,
    timestamp := now }

/-- addMagnet.  The Bool records whether the engine was contacted;
`engineResp` is the gid of a successful add (none for a failed call, and a
falsy gid is rejected as an invalid response). -/
def addMagnet (tasks : List Task) (engineResp : Option String) (now : Int) :
    Bool × List Task :=
  if tasks.any isBlocking then (false, tasks)
  else
    match engineResp with
    | none => (true, tasks)
    | some g =>
        if g == "" then (true, tasks)
        else (true, freshLocalTask g "Resolving metadata..." now :: tasks)

/-- addTorrentFile: identical guard and shape, different placeholder name. -/
def addTorrentFile (tasks : List Task) (engineResp : Option String) (now : Int) :
    Bool × List Task :=
  if tasks.any isBlocking then (false, tasks)
  else
    match engineResp with
    | none => (true, tasks)
    | some g =>
        if g == "" then (true, tasks)
        else (true, freshLocalTask g "Uploading torrent file..." now :: tasks)

/-- removeTask: add to the suppression set and filter the list before the
network call; the call's outcome (apiOk) is caught and ignored. -/
def removeTask (st : ClientState) (g : String) (_apiOk : Bool) : ClientState :=
  { ignored := setInsert st.ignored g,
    tasks := st.tasks.filter (fun t => !(t.gid == g)) }

/-- pauseTask: the optimistic update precedes the await; apiOk cannot
influence it and no rollback exists. -/
def pauseTask (tasks : List Task) (g : String) (_apiOk : Bool) : List Task :=
  tasks.map (fun t => if t.gid == g then { t with status := "paused", speed := 0 } else t)

/-- resumeTask: same shape as pauseTask. -/
def resumeTask (tasks : List Task) (g : String) (_apiOk : Bool) : List Task :=
  tasks.map (fun t => if t.gid == g then { t with status := "waiting" } else t)

/-! ### Concrete sample states used by the counterexamples and witnesses -/

/-- A freshly added magnet task, as addMagnet builds it. -/
def tAbc : Task :=
  { gid := "abc", name := "Resolving metadata...", size := 0, completed := 0,
    speed := 0, status := "active", progress := JNum.num 0, errorMessage := none,
    errorCode := none, seeds := none, peers := none, infoHash := none, timestamp := 0 }

def tDef : Task := { tAbc with gid := "abcdef", name := "movie.mkv" }

def eDef : BackendTask :=
  { gid := "abcdef", totalLength := some "100", completedLength := some "50",
    downloadSpeed := some "5", status := "active", firstFilePath := some "/d/movie.mkv",
    numSeeders := some "1", connections := some "2", errorCode := none,
    errorMessage := none, infoHash := some "h" }

def eA1 : BackendTask := { eDef with gid := "g1", infoHash := none, firstFilePath := some "a.bin" }

def eA2 : BackendTask := { eDef with gid := "g2", infoHash := none, firstFilePath := some "b.bin" }

/-- A local task whose display name has resolved (not a placeholder). -/
def ltC1 : Task := { tAbc with gid := "aaa", name := "movie.mkv", infoHash := some "h1" }

/-- Candidate matching ltC1 only by display name. -/
def bNameC : BackendTask :=
  { eDef with gid := "zzz", firstFilePath := some "dl/movie.mkv", infoHash := some "h2" }

/-- Candidate matching ltC1 by content fingerprint. -/
def bHashC : BackendTask :=
  { eDef with gid := "yyy", firstFilePath := some "dl/other.bin", infoHash := some "h1" }

/-- A local task already forced to phase removed, long unreported. -/
def tRem : Task := { tAbc with gid := "r1", name := "old.bin", status := "removed" }

def tC5 : Task := { tAbc with gid := "m1", name := "file.iso", completed := 100, infoHash := some "hh" }

def eC5 : BackendTask :=
  { gid := "n2", totalLength := some "1000", completedLength := some "0",
    downloadSpeed := some "0", status := "active", firstFilePath := some "dl/file.iso",
    numSeeders := some "0", connections := some "0", errorCode := none,
    errorMessage := none, infoHash := some "hh" }

def tC6 : Task := { tAbc with gid := "q1", name := "data.zip", timestamp := 5 }

def eC6 : BackendTask := { eC5 with gid := "q1x", infoHash := none }

def tP : Task := { tAbc with gid := "p1", name := "x.bin" }

def tW1 : Task := { tAbc with gid := "w1", name := "w.bin" }

def bW1 : BackendTask := { eC5 with gid := "w1x", infoHash := none }

def eW2 : BackendTask := { eC5 with gid := "a1", infoHash := none }

def tBlk : Task := { tAbc with gid := "b1", status := "waiting" }

def tY : Task := { tAbc with gid := "y1", name := "y.bin" }

def tOld4 : Task := { tAbc with gid := "o1", name := "o.bin", status := "paused" }

def tW5 : Task := { tAbc with gid := "w5", name := "w5.bin" }

def eW5 : BackendTask := { eC5 with gid := "w5x", infoHash := none }

def tW6 : Task := { tAbc with gid := "w6", name := "w6.bin", timestamp := 11 }

def eW6 : BackendTask := { eC5 with gid := "w6x", infoHash := none }

def tW8 : Task := { tAbc with gid := "k1", name := "k.bin" }

def tW9 : Task := { tAbc with gid := "v1", name := "v.bin" }

def bW9 : BackendTask := { eC5 with gid := "v1", status := "removed", infoHash := none }

def bW10 : BackendTask :=
  { gid := "x1", totalLength := none, completedLength := some "0",
    downloadSpeed := none, status := "active", firstFilePath := none,
    numSeeders := none, connections := none, errorCode := none,
    errorMessage := none, infoHash := none }


theorem charsPref_self_append (xs ys : List Char) : charsPref xs (xs ++ ys) = true := by
  induction xs with
  | nil => rfl
  | cons a as ih => simp [charsPref, ih]

theorem jsStartsWith_append (pat sp n : String) (h : sp.data = pat.data ++ [' ']) :
    jsStartsWith (sp ++ n) pat = true := by
  unfold jsStartsWith
  show charsPref pat.toList (sp ++ n).toList = true
  have hx : (sp ++ n).toList = pat.data ++ (' ' :: n.data) := by
    show (sp ++ n).data = _
    rw [String.data_append, h, List.append_assoc]
    rfl
  rw [hx]
  exact charsPref_self_append _ _

theorem serverRemovedMark_marked (n : String) :
    jsStartsWith (serverRemovedMark n) "[Server Removed]" = true := by
  unfold serverRemovedMark
  by_cases h : jsStartsWith n "[Server Removed]" = true
  · simp [h]
  · simp only [h, Bool.false_eq_true, if_false]
    exact jsStartsWith_append _ _ _ rfl

theorem lostMark_marked (n : String) : jsStartsWith (lostMark n) "[Lost]" = true := by
  unfold lostMark
  by_cases h : jsStartsWith n "[Lost]" = true
  · simp [h]
  · simp only [h, Bool.false_eq_true, if_false]
    exact jsStartsWith_append _ _ _ rfl

theorem startsWith_ne_empty (n pat : String) (hpat : jsStartsWith "" pat = false)
    (h : jsStartsWith n pat = true) : (n == "") = false := by
  cases hn : n == "" with
  | false => rfl
  | true =>
      have he : n = "" := by simpa using hn
      rw [he] at h
      rw [h] at hpat
      exact absurd hpat (by simp)

theorem serverRemovedMark_idem (n : String) :
    serverRemovedMark (serverRemovedMark n) = serverRemovedMark n := by
  unfold serverRemovedMark
  by_cases h : jsStartsWith n "[Server Removed]" = true
  · simp [h]
  · simp only [h, Bool.false_eq_true, if_false]
    rw [jsStartsWith_append "[Server Removed]" "[Server Removed] " n rfl]
    simp

theorem lostMark_idem (n : String) : lostMark (lostMark n) = lostMark n := by
  unfold lostMark
  by_cases h : jsStartsWith n "[Lost]" = true
  · simp [h]
  · simp only [h, Bool.false_eq_true, if_false]
    rw [jsStartsWith_append "[Lost]" "[Lost] " n rfl]
    simp


theorem findFollowUp_eq_find? (lt : Task) (m : List BackendTask) :
    findFollowUp lt m = m.find? (jsFollowCond lt) := by
  induction m with
  | nil => rfl
  | cons bt rest ih =>
      by_cases h : jsFollowCond lt bt = true
      · simp [findFollowUp, h]
      · simp only [Bool.not_eq_true] at h
        simp [findFollowUp, h, ih]

theorem processTasks_length (ig : List String) (now : Int) :
    ∀ (ts : List Task) (m : List BackendTask),
      ((processTasks ig now ts m).1).length = ts.length := by
  intro ts
  induction ts with
  | nil => intro m; rfl
  | cons lt rest ih => intro m; simp [processTasks, ih]

theorem processTasks_suppressed (ig : List String) (now : Int) :
    ∀ (ts : List Task) (m : List BackendTask),
      List.Forall₂ (fun lt lt2 => setMem ig lt.gid = true →
        lt2 = { lt with status := "removed", speed := 0 }) ts (processTasks ig now ts m).1 := by
  intro ts
  induction ts with
  | nil => intro m; exact List.Forall₂.nil
  | cons lt rest ih =>
      intro m
      refine List.Forall₂.cons ?_ (ih _)
      intro h
      simp [processTask, h]

theorem mapLookup_isSome_eq_any (m : List BackendTask) (g : String) :
    (mapLookup m g).isSome = m.any (fun u => u.gid == g) := by
  induction m with
  | nil => rfl
  | cons u rest ih =>
      by_cases h : (u.gid == g) = true
      · simp [mapLookup, List.find?_cons, h]
      · simp only [Bool.not_eq_true] at h
        simp [mapLookup, List.find?_cons, h] at ih ⊢
        exact ih

theorem any_gid_map_repl (m : List BackendTask) (t : BackendTask) (g : String) :
    (m.map (fun u => if u.gid == t.gid then t else u)).any (fun u => u.gid == g) =
      m.any (fun u => u.gid == g) := by
  induction m with
  | nil => rfl
  | cons u rest ih =>
      simp only [List.map_cons, List.any_cons, ih]
      by_cases hu : (u.gid == t.gid) = true
      · have hug : u.gid = t.gid := by simpa using hu
        simp [hu, hug]
      · simp only [Bool.not_eq_true] at hu
        simp [hu]

theorem any_gid_mapSet (m : List BackendTask) (t : BackendTask) (g : String) :
    (mapSet m t).any (fun u => u.gid == g) = (m.any (fun u => u.gid == g) || (t.gid == g)) := by
  unfold mapSet
  by_cases hc : m.any (fun u => u.gid == t.gid) = true
  · simp only [hc, if_true]
    rw [any_gid_map_repl]
    by_cases ht : (t.gid == g) = true
    · have htg : t.gid = g := by simpa using ht
      have hmg : m.any (fun u => u.gid == g) = true := by
        rw [List.any_eq_true] at hc ⊢
        obtain ⟨u, hu, hq⟩ := hc
        have hq2 : u.gid = t.gid := by simpa using hq
        exact ⟨u, hu, by simp [hq2, htg]⟩
      rw [hmg, ht]
      rfl
    · simp only [Bool.not_eq_true] at ht
      rw [ht, Bool.or_false]
  · simp only [Bool.not_eq_true] at hc
    simp [hc]

theorem any_gid_buildMap (l : List BackendTask) (g : String) :
    (buildMap l).any (fun u => u.gid == g) = l.any (fun u => u.gid == g) := by
  suffices h : ∀ init, (l.foldl mapSet init).any (fun u => u.gid == g) =
      (init.any (fun u => u.gid == g) || l.any (fun u => u.gid == g)) by
    have := h []
    simpa [buildMap] using this
  induction l with
  | nil => intro init; simp
  | cons t rest ih =>
      intro init
      simp only [List.foldl_cons, List.any_cons]
      rw [ih, any_gid_mapSet]
      cases init.any (fun u => u.gid == g) <;> cases (t.gid == g) <;> simp

theorem setMem_filter_lookup (s : List String) (m : List BackendTask) (g : String) :
    setMem (s.filter (fun x => (mapLookup m x).isSome)) g = true ↔
      (setMem s g = true ∧ (mapLookup m g).isSome = true) := by
  unfold setMem
  rw [List.any_eq_true, List.any_eq_true]
  constructor
  · rintro ⟨x, hx, hq⟩
    rw [List.mem_filter] at hx
    have hxg : x = g := by simpa using hq
    exact ⟨⟨x, hx.1, hq⟩, hxg ▸ hx.2⟩
  · rintro ⟨⟨x, hx, hq⟩, hg⟩
    have hxg : x = g := by simpa using hq
    subst hxg
    exact ⟨x, List.mem_filter.mpr ⟨hx, hg⟩, hq⟩


theorem jsOrStr_some_of_ne (s b : String) (h : (s == "") = false) :
    jsOrStr (some s) b = s := by
  simp [jsOrStr, h]

theorem jsOrStr_some_of_eq (s b : String) (h : (s == "") = true) :
    jsOrStr (some s) b = b := by
  simp [jsOrStr, h]

theorem mergeExisting_removed_eq (lt : Task) (bt : BackendTask) (now : Int)
    (hs : bt.status = "removed") :
    mergeExisting lt bt now =
      { lt with
        name := serverRemovedMark
          (jsOrStr (bt.firstFilePath.map lastSeg) (jsOrStr (some lt.name) "Unknown File"))
        size := orZero bt.totalLength
        completed := orZero bt.completedLength
        speed := orZero bt.downloadSpeed
        status := "error"
        progress := progressOf bt.completedLength bt.totalLength
        errorMessage := jsOrNull bt.errorMessage
        errorCode := jsOrNull bt.errorCode
        seeds := some (orZero bt.numSeeders)
        peers := some (orZero bt.connections)
        infoHash := jsOrNull bt.infoHash
        timestamp := now } := by
  unfold mergeExisting
  rw [hs]
  rfl

theorem removed_name_stable (fp : Option String) (prev : String) :
    serverRemovedMark (jsOrStr (fp.map lastSeg)
      (jsOrStr (some (serverRemovedMark
        (jsOrStr (fp.map lastSeg) (jsOrStr (some prev) "Unknown File")))) "Unknown File")) =
    serverRemovedMark (jsOrStr (fp.map lastSeg) (jsOrStr (some prev) "Unknown File")) := by
  have hma : ∀ x : String, (serverRemovedMark x == "") = false := fun x =>
    startsWith_ne_empty _ "[Server Removed]" (by decide) (serverRemovedMark_marked x)
  cases fp with
  | none =>
      simp only [Option.map_none']
      show serverRemovedMark (jsOrStr (some (serverRemovedMark (jsOrStr (some prev) "Unknown File"))) "Unknown File") = _
      rw [jsOrStr_some_of_ne _ _ (hma _)]
      exact serverRemovedMark_idem _
  | some p =>
      simp only [Option.map_some']
      by_cases hp : (lastSeg p == "") = true
      · simp only [jsOrStr_some_of_eq _ _ hp]
        rw [jsOrStr_some_of_ne _ _ (hma _)]
        exact serverRemovedMark_idem _
      · simp only [Bool.not_eq_true] at hp
        simp only [jsOrStr_some_of_ne _ _ hp]

theorem updateTasks_decompose (st : ClientState) (a w s : List BackendTask) (now : Int) :
    (updateTasksFromBackend st a w s now).tasks =
      (((processTasks (updateTasksFromBackend st a w s now).ignored now st.tasks
          (buildMap (a ++ w ++ s))).2.filter
          (fun bt => !(setMem (updateTasksFromBackend st a w s now).ignored bt.gid))).map
          (fun bt => newTaskOf bt now)).reverse ++
      (processTasks (updateTasksFromBackend st a w s now).ignored now st.tasks
          (buildMap (a ++ w ++ s))).1 := rfl

/-! ### Claim C1: lineage resolution order -/

/-- C1 counterexample.  The claim asserts a strict rule-priority order
(fingerprint before display name) and restricts the name rule to tasks whose
name was still a placeholder.  On this input the unclaimed candidate bHashC
carries the matching content fingerprint while bNameC matches only by
resolved (non-placeholder) display name, yet the reconciler links to bNameC
because it scans candidates in snapshot order and accepts the first entry
satisfying any rule. -/
theorem C1_cx :
    findFollowUp ltC1 [bNameC, bHashC] = some bNameC ∧
    (bHashC.infoHash == ltC1.infoHash) = true ∧
    (bNameC.infoHash == ltC1.infoHash) = false ∧
    ltC1.name ≠ "Resolving metadata..." ∧
    ltC1.name ≠ "Uploading torrent file..." ∧
    jsStartsWith bNameC.gid ltC1.gid = false := by decide

/-- C1 (amended): the reconciler resolves at most one successor for a local
task missing from the snapshot, taking the first unclaimed snapshot entry in
snapshot order that satisfies any one of: the new identifier lexically
extends the old one, the content fingerprints match, or the resolved display
names match with the old name not a placeholder; there is no rule-priority
order and no engine-reported successor reference is consulted.  When an
entry matches, every entry before it satisfies no rule, and the matched
entry is deleted from the candidate map, so it is consumable only once per
cycle; when no entry matches, every candidate fails every rule. -/
theorem C1_first_match (lt : Task) (m : List BackendTask) :
    (∀ bt, findFollowUp lt m = some bt →
      jsFollowCond lt bt = true ∧
      ∃ pre suf, m = pre ++ bt :: suf ∧ ∀ c ∈ pre, jsFollowCond lt c = false) ∧
    (findFollowUp lt m = none → ∀ c ∈ m, jsFollowCond lt c = false) ∧
    (∀ (ig : List String) (now : Int) (bt : BackendTask),
      setMem ig lt.gid = false → mapLookup m lt.gid = none →
      findFollowUp lt m = some bt →
      (processTask ig now m lt).2 = mapDelete m bt.gid) := by
  refine ⟨?_, ?_, ?_⟩
  · intro bt h
    rw [findFollowUp_eq_find?] at h
    obtain ⟨hp, pre, suf, heq, hall⟩ := List.find?_eq_some.mp h
    exact ⟨hp, pre, suf, heq, fun c hc => by simpa using hall c hc⟩
  · intro h c hc
    rw [findFollowUp_eq_find?] at h
    have := List.find?_eq_none.mp h c hc
    simpa using this
  · intro ig now bt hig hlk hf
    simp [processTask, hig, hlk, hf]

/-- C1 witness: the amended theorem applied to the concrete follow-up
resolution of tW1 by the gid-extension candidate bW1. -/
theorem C1_witness :
    jsFollowCond tW1 bW1 = true ∧
    (processTask [] 0 [bW1] tW1).2 = mapDelete [bW1] "w1x" := by
  have h := C1_first_match tW1 [bW1]
  refine ⟨(h.1 bW1 (by decide)).1, ?_⟩
  exact h.2.2 [] 0 bW1 (by decide) (by decide) (by decide)

/-! ### Claim C2: suppression -/

/-- C2 counterexample.  After the user removes "abcdef" (placing it in the
Suppression Set and deleting it locally), a later cycle still reporting
"abcdef" lets the surviving local task "abc" adopt the suppressed identifier
through lineage resolution (the new gid extends the old one), so "abcdef"
reappears in the client task list with a non-removed status. -/
theorem C2_cx :
    setMem (removeTask ⟨[], [tAbc, tDef]⟩ "abcdef" true).ignored "abcdef" = true ∧
    (updateTasksFromBackend (removeTask ⟨[], [tAbc, tDef]⟩ "abcdef" true)
        [eDef] [] [] 0).tasks.any
      (fun t => t.gid == "abcdef" && !(t.status == "removed")) = true := by decide

/-- C2 (amended): a user remove adds g to the Suppression Set and deletes
every local entry with identifier g immediately; in each reconciliation
cycle no snapshot entry whose identifier is suppressed is appended as a
newly discovered task; every surviving local entry whose identifier is
suppressed is forced to phase removed (all other fields except speed
unchanged); and the suppression entry survives the cycle exactly when the
polled snapshot still contains g.  (A suppressed identifier can nevertheless
reappear when another local task's lineage resolution adopts it, as the
counterexample shows.) -/
theorem C2_suppression (st : ClientState) (a w s : List BackendTask) (now : Int)
    (g : String) (ok : Bool) :
    (setMem (updateTasksFromBackend st a w s now).ignored g = true ↔
      (setMem st.ignored g = true ∧ (a ++ w ++ s).any (fun bt => bt.gid == g) = true)) ∧
    (∃ (freshL merged : List Task),
      (updateTasksFromBackend st a w s now).tasks = freshL.reverse ++ merged ∧
      (∀ t ∈ freshL, setMem (updateTasksFromBackend st a w s now).ignored t.gid = false) ∧
      List.Forall₂ (fun lt lt2 =>
          setMem (updateTasksFromBackend st a w s now).ignored lt.gid = true →
          lt2 = { lt with status := "removed", speed := 0 }) st.tasks merged) ∧
    (setMem (removeTask st g ok).ignored g = true) ∧
    (∀ t ∈ (removeTask st g ok).tasks, t.gid ≠ g) := by
  refine ⟨?_, ⟨_, _, updateTasks_decompose st a w s now, ?_, ?_⟩, ?_, ?_⟩
  · show setMem (st.ignored.filter
        (fun x => (mapLookup (buildMap (a ++ w ++ s)) x).isSome)) g = true ↔ _
    rw [setMem_filter_lookup, mapLookup_isSome_eq_any, any_gid_buildMap]
  · intro t ht
    obtain ⟨bt, hbt, rfl⟩ := List.mem_map.mp ht
    have hcond := (List.mem_filter.mp hbt).2
    show setMem (updateTasksFromBackend st a w s now).ignored bt.gid = false
    simpa using hcond
  · exact processTasks_suppressed _ now st.tasks _
  · by_cases h : setMem st.ignored g = true
    · simp [removeTask, setInsert, h]
    · simp only [Bool.not_eq_true] at h
      have hnm : g ∉ st.ignored := fun hm => by
        have hx : setMem st.ignored g = true := by
          unfold setMem
          rw [List.any_eq_true]
          exact ⟨g, hm, by simp⟩
        rw [h] at hx
        exact absurd hx (by simp)
      simp [removeTask, setInsert, setMem, h, hnm]
  · intro t ht
    simp only [removeTask] at ht
    have := (List.mem_filter.mp ht).2
    simpa using this

/-- C2 witness: the suppression entry "a1" survives a cycle whose snapshot
still contains it, by the amended theorem's pruning characterisation. -/
theorem C2_witness :
    setMem (updateTasksFromBackend ⟨["a1"], []⟩ [eW2] [] [] 0).ignored "a1" = true := by
  have h := C2_suppression ⟨["a1"], []⟩ [eW2] [] [] 0 "a1" true
  exact h.1.mpr ⟨by decide, by decide⟩

/-! ### Claim C3: queue-busy guard and the single-task bound -/

/-- C3 counterexample.  The reconciler appends every unclaimed snapshot
entry, so one merge of a snapshot reporting two active entries into an empty
local list yields two tracked tasks in phase active: the claimed bound of at
most one tracked task in the busy phases does not hold at all times. -/
theorem C3_cx :
    ((updateTasksFromBackend ⟨[], []⟩ [eA1, eA2] [] [] 0).tasks.filter
      (fun t => t.status == "active" || t.status == "waiting")).length = 2 := by decide

/-- C3 (amended): when any tracked task has status active, waiting or
uploading, both add operations return immediately with no local task created
and no engine contact (the Bool component false records that the request was
never issued); consequently an add never raises the number of tasks in those
statuses above one.  The bound can still be exceeded by reconciliation, as
the counterexample shows. -/
theorem C3_queue (tasks : List Task) (resp : Option String) (now : Int) :
    (tasks.any isBlocking = true →
      addMagnet tasks resp now = (false, tasks) ∧
      addTorrentFile tasks resp now = (false, tasks)) ∧
    ((addMagnet tasks resp now).2.filter isBlocking).length ≤
      max ((tasks.filter isBlocking).length) 1 ∧
    ((addTorrentFile tasks resp now).2.filter isBlocking).length ≤
      max ((tasks.filter isBlocking).length) 1 := by
  refine ⟨?_, ?_, ?_⟩
  · intro h
    exact ⟨by simp [addMagnet, h], by simp [addTorrentFile, h]⟩
  · by_cases h : tasks.any isBlocking = true
    · simp only [addMagnet, h, if_true]
      exact le_max_left _ _
    · simp only [Bool.not_eq_true] at h
      have h0 : tasks.filter isBlocking = [] :=
        List.filter_eq_nil_iff.mpr (fun t ht => by
          have := List.any_eq_false.mp h t ht
          simpa using this)
      simp only [addMagnet, h, Bool.false_eq_true, if_false]
      cases resp with
      | none => simp [h0]
      | some g =>
          by_cases hg : (g == "") = true
          · simp [hg, h0]
          · simp only [Bool.not_eq_true] at hg
            simp [hg, h0, isBlocking, freshLocalTask]
  · by_cases h : tasks.any isBlocking = true
    · simp only [addTorrentFile, h, if_true]
      exact le_max_left _ _
    · simp only [Bool.not_eq_true] at h
      have h0 : tasks.filter isBlocking = [] :=
        List.filter_eq_nil_iff.mpr (fun t ht => by
          have := List.any_eq_false.mp h t ht
          simpa using this)
      simp only [addTorrentFile, h, Bool.false_eq_true, if_false]
      cases resp with
      | none => simp [h0]
      | some g =>
          by_cases hg : (g == "") = true
          · simp [hg, h0]
          · simp only [Bool.not_eq_true] at hg
            simp [hg, h0, isBlocking, freshLocalTask]

/-- C3 witness: an add against a list holding one waiting task is rejected
without touching the list, by the amended theorem's guard clause. -/
theorem C3_witness : addMagnet [tBlk] (some "gx") 9 = (false, [tBlk]) := by
  have h := C3_queue [tBlk] (some "gx") 9
  exact (h.1 (by decide)).1

/-! ### Claim C4: grace window and the lost marking -/

/-- C4 counterexample.  A local task already in phase removed that has been
missing far beyond the grace window is left entirely unchanged by the
reconciler: it is neither marked phase error nor given the lost marker,
contradicting the claim that every unresolved task is so marked after the
window. -/
theorem C4_cx :
    (updateTasksFromBackend ⟨[], [tRem]⟩ [] [] [] 1000000).tasks = [tRem] ∧
    tRem.status ≠ "error" ∧
    jsStartsWith tRem.name "[Lost]" = false := by decide

/-- C4 (amended): a task missing from the snapshot with no lineage match is
left entirely unchanged when its phase is active and its absence is within
the sixty-second window; otherwise, when its phase is not removed, it is
marked phase error with the distinguishing lost marker prefixed to its name
(identifier, byte counts and timestamp untouched), while a task already in
phase removed is left unchanged; the lost marking is idempotent and the
merge loop never deletes a local task. -/
theorem C4_grace (lt : Task) (now : Int) (ig : List String) :
    ((now - lt.timestamp < 60000 ∧ lt.status = "active") → graceOrLost lt now = lt) ∧
    (¬(now - lt.timestamp < 60000 ∧ lt.status = "active") → lt.status ≠ "removed" →
      (graceOrLost lt now).status = "error" ∧
      jsStartsWith (graceOrLost lt now).name "[Lost]" = true ∧
      (graceOrLost lt now).gid = lt.gid ∧
      (graceOrLost lt now).completed = lt.completed ∧
      (graceOrLost lt now).size = lt.size ∧
      (graceOrLost lt now).timestamp = lt.timestamp) ∧
    (lt.status = "removed" → graceOrLost lt now = lt) ∧
    (∀ (ts : List Task) (m : List BackendTask),
      ((processTasks ig now ts m).1).length = ts.length) := by
  refine ⟨?_, ?_, ?_, ?_⟩
  · intro h
    simp [graceOrLost, h]
  · intro hn hr
    have hg : graceOrLost lt now =
        { lt with status := "error", name := lostMark lt.name, speed := 0 } := by
      simp [graceOrLost, hn, hr]
    rw [hg]
    exact ⟨rfl, lostMark_marked _, rfl, rfl, rfl, rfl⟩
  · intro hr
    have hn : ¬(now - lt.timestamp < 60000 ∧ lt.status = "active") := by
      rintro ⟨-, ha⟩
      rw [hr] at ha
      exact absurd ha (by decide)
    have hr2 : ¬(lt.status ≠ "removed") := by simp [hr]
    simp [graceOrLost, hn, hr2]
  · exact fun ts m => processTasks_length ig now ts m

/-- C4 witness: the grace branch keeps a young active task unchanged and the
lost branch marks an old paused task as error, by the amended theorem. -/
theorem C4_witness :
    graceOrLost tY 1000 = tY ∧ (graceOrLost tOld4 70000).status = "error" := by
  refine ⟨(C4_grace tY 1000 []).1 ⟨by decide, rfl⟩, ?_⟩
  exact ((C4_grace tOld4 70000 []).2.1 (by decide) (by decide)).1

/-! ### Claim C5: byte-count monotonicity across lineage transitions -/

/-- C5 counterexample.  A lineage transition accepted on the content
fingerprint copies the snapshot byte count wholesale: the local task had 100
completed bytes, the successor entry reports 0, and after adopting the new
identifier the completed count drops to 0, violating monotonicity. -/
theorem C5_cx :
    tC5.completed = 100 ∧
    ((updateTasksFromBackend ⟨[], [tC5]⟩ [eC5] [] [] 0).tasks.map
      (fun t => (t.gid, t.completed))) = [("n2", 0)] := by decide

/-- C5 (amended): when the reconciler accepts a lineage transition for a
local task, the task adopts the successor's identifier and its completed
byte count becomes exactly the successor entry's parsed completed count
(0 when missing or unparseable); the previous local count is discarded, so
the count is not monotone across the transition. -/
theorem C5_adopt_completed (ig : List String) (now : Int) (m : List BackendTask)
    (lt : Task) (bt : BackendTask)
    (h1 : setMem ig lt.gid = false) (h2 : mapLookup m lt.gid = none)
    (h3 : findFollowUp lt m = some bt) :
    (processTask ig now m lt).1.gid = bt.gid ∧
    (processTask ig now m lt).1.completed = (jsParseIntO bt.completedLength).getD 0 := by
  simp [processTask, h1, h2, h3, adoptFollowUp, orZero]

/-- C5 witness: the amended theorem applied to the concrete transition of
tW5 to the gid-extension successor eW5. -/
theorem C5_witness :
    (processTask [] 3 [eW5] tW5).1.completed = (jsParseIntO eW5.completedLength).getD 0 := by
  have h := C5_adopt_completed [] 3 [eW5] tW5 eW5 (by decide) (by decide) (by decide)
  exact h.2

/-! ### Claim C6: fields copied on adoption, timestamp refreshed -/

/-- C6 counterexample.  The local task was created at timestamp 5; after the
reconciler resolves its lineage to the new identifier, its timestamp is 777,
the current cycle time, so the original creation timestamp is not
preserved. -/
theorem C6_cx :
    tC6.timestamp = 5 ∧
    ((updateTasksFromBackend ⟨[], [tC6]⟩ [eC6] [] [] 777).tasks.map
      (fun t => (t.gid, t.timestamp))) = [("q1x", 777)] := by decide

/-- C6 (amended): on a lineage match against an unclaimed snapshot entry the
reconciler adopts the new identifier and copies the entry's fields (status,
size, completed, speed, seeds, peers), but it refreshes the task's timestamp
to the current cycle time rather than preserving the original creation
timestamp. -/
theorem C6_adopt_fields (ig : List String) (now : Int) (m : List BackendTask)
    (lt : Task) (bt : BackendTask)
    (h1 : setMem ig lt.gid = false) (h2 : mapLookup m lt.gid = none)
    (h3 : findFollowUp lt m = some bt) :
    (processTask ig now m lt).1 = adoptFollowUp lt bt now ∧
    (adoptFollowUp lt bt now).gid = bt.gid ∧
    (adoptFollowUp lt bt now).status = bt.status ∧
    (adoptFollowUp lt bt now).size = orZero bt.totalLength ∧
    (adoptFollowUp lt bt now).completed = orZero bt.completedLength ∧
    (adoptFollowUp lt bt now).speed = orZero bt.downloadSpeed ∧
    (adoptFollowUp lt bt now).seeds = some (orZero bt.numSeeders) ∧
    (adoptFollowUp lt bt now).peers = some (orZero bt.connections) ∧
    (adoptFollowUp lt bt now).timestamp = now := by
  refine ⟨?_, rfl, rfl, rfl, rfl, rfl, rfl, rfl, rfl⟩
  simp [processTask, h1, h2, h3]

/-- C6 witness: the amended theorem applied to the concrete adoption of eW6
by tW6 at cycle time 44. -/
theorem C6_witness :
    (processTask [] 44 [eW6] tW6).1 = adoptFollowUp tW6 eW6 44 ∧
    (adoptFollowUp tW6 eW6 44).timestamp = 44 := by
  have h := C6_adopt_fields [] 44 [eW6] tW6 eW6 (by decide) (by decide) (by decide)
  exact ⟨h.1, h.2.2.2.2.2.2.2.2⟩

/-! ### Claim C7: failed network calls and local state -/

/-- C7 counterexample.  pauseTask applies its optimistic local update before
issuing the network call: when the call fails the task list is not as it was
before the call, contradicting the claim for the pause operation. -/
theorem C7_cx : pauseTask [tP] "p1" false ≠ [tP] := by decide

/-- C7 (amended): a failed or timed-out status poll leaves the client state
unchanged, and a failed add leaves the task list unchanged; pause, resume
and remove apply their optimistic local update before the call and keep it
regardless of the call's outcome (their local result is independent of
success, and remove's failure is absorbed without an error). -/
theorem C7_network (st : ClientState) (tasks : List Task) (g : String)
    (now : Int) (ok : Bool) :
    refreshStatus st none now = st ∧
    (addMagnet tasks none now).2 = tasks ∧
    (addTorrentFile tasks none now).2 = tasks ∧
    pauseTask tasks g ok = pauseTask tasks g true ∧
    resumeTask tasks g ok = resumeTask tasks g true ∧
    removeTask ⟨st.ignored, tasks⟩ g ok = removeTask ⟨st.ignored, tasks⟩ g true := by
  refine ⟨rfl, ?_, ?_, rfl, rfl, rfl⟩
  · by_cases h : tasks.any isBlocking = true
    · simp [addMagnet, h]
    · simp only [Bool.not_eq_true] at h
      simp [addMagnet, h]
  · by_cases h : tasks.any isBlocking = true
    · simp [addTorrentFile, h]
    · simp only [Bool.not_eq_true] at h
      simp [addTorrentFile, h]

/-! ### Claim C8: remove is idempotent -/

/-- C8 (confirmed): removing an identifier that is already in the
Suppression Set and absent from the task list changes nothing: the set
insertion and the list filter are both identities, and the outcome of the
underlying network call (caught in the source) cannot influence the local
state, so no error is raised. -/
theorem C8_remove_idem (st : ClientState) (g : String) (ok : Bool)
    (h1 : setMem st.ignored g = true) (h2 : ∀ t ∈ st.tasks, t.gid ≠ g) :
    removeTask st g ok = st ∧ removeTask st g ok = removeTask st g true := by
  refine ⟨?_, rfl⟩
  unfold removeTask
  have hf : st.tasks.filter (fun t => !(t.gid == g)) = st.tasks :=
    List.filter_eq_self.mpr (fun t ht => by simp [h2 t ht])
  have hi : setInsert st.ignored g = st.ignored := by simp [setInsert, h1]
  rw [hf, hi]

/-- C8 witness: removing the already-suppressed identifier "z" from a state
whose task list does not contain it is a no-op, even when the network call
fails. -/
theorem C8_witness : removeTask ⟨["z"], [tW8]⟩ "z" false = ⟨["z"], [tW8]⟩ := by
  exact (C8_remove_idem ⟨["z"], [tW8]⟩ "z" false (by decide) (by decide)).1

/-! ### Claim C9: server-reported removed status -/

/-- C9 (confirmed): when a snapshot entry matching a local task's identifier
carries status removed, the reconciler keeps the task in place (the merge
branch updates it at its position rather than deleting it), sets its status
to error, and prefixes the display name with the server-removed marker; a
second cycle with the same entry leaves the name unchanged, so the prefix is
never duplicated. -/
theorem C9_server_removed (lt : Task) (bt : BackendTask) (now now2 : Int)
    (hs : bt.status = "removed") :
    (mergeExisting lt bt now).status = "error" ∧
    jsStartsWith (mergeExisting lt bt now).name "[Server Removed]" = true ∧
    (mergeExisting (mergeExisting lt bt now) bt now2).name = (mergeExisting lt bt now).name ∧
    (∀ (ig : List String) (m : List BackendTask),
      setMem ig lt.gid = false → mapLookup m lt.gid = some bt →
      (processTask ig now m lt).1 = mergeExisting lt bt now) := by
  refine ⟨?_, ?_, ?_, ?_⟩
  · rw [mergeExisting_removed_eq lt bt now hs]
  · rw [mergeExisting_removed_eq lt bt now hs]
    exact serverRemovedMark_marked _
  · rw [mergeExisting_removed_eq lt bt now hs, mergeExisting_removed_eq _ bt now2 hs]
    exact removed_name_stable bt.firstFilePath lt.name
  · intro ig m hig hlk
    simp [processTask, hig, hlk]

/-- C9 witness: the theorem applied to the concrete task tW9 whose snapshot
entry bW9 reports status removed. -/
theorem C9_witness :
    (mergeExisting tW9 bW9 7).status = "error" ∧
    jsStartsWith (mergeExisting tW9 bW9 7).name "[Server Removed]" = true := by
  have h := C9_server_removed tW9 bW9 7 8 rfl
  exact ⟨h.1, h.2.1⟩

/-! ### Claim C10: numeric fields after a merge -/

/-- C10 counterexample.  A snapshot entry claimed by no local task is
appended by the merge, and the appended object carries no seeds or peers
fields at all, so not every task's numeric fields are numbers after the
merge. -/
theorem C10_cx :
    ((updateTasksFromBackend ⟨[], []⟩ [eA1] [] [] 0).tasks.map
      (fun t => (t.seeds, t.peers))) = [(none, none)] := by decide

/-- C10 (amended): every task matched against a snapshot entry gets numeric
size, completed, speed, seeds and peers, with a missing or unparseable
backend field replaced by 0, and the progress computation yields 0 (not NaN)
whenever both operands parse to 0; a newly appended task, however, carries
no seeds or peers fields at all. -/
theorem C10_numeric (lt : Task) (bt : BackendTask) (now : Int) (o : Option String) :
    (mergeExisting lt bt now).seeds = some (orZero bt.numSeeders) ∧
    (mergeExisting lt bt now).peers = some (orZero bt.connections) ∧
    (mergeExisting lt bt now).size = orZero bt.totalLength ∧
    (mergeExisting lt bt now).completed = orZero bt.completedLength ∧
    (mergeExisting lt bt now).speed = orZero bt.downloadSpeed ∧
    (newTaskOf bt now).seeds = none ∧
    (newTaskOf bt now).peers = none ∧
    (jsParseIntO o = none → orZero o = 0) ∧
    ((jsParseIntO bt.completedLength).getD 0 = 0 →
      (jsParseIntO bt.totalLength).getD 0 = 0 →
      progressOf bt.completedLength bt.totalLength = JNum.num 0) := by
  refine ⟨rfl, rfl, rfl, rfl, rfl, rfl, rfl, ?_, ?_⟩
  · intro h
    simp [orZero, h]
  · intro hc ht
    unfold progressOf
    cases hco : jsParseIntO bt.completedLength with
    | none => simp [jDivP, jMul100, jsOrZeroNum]
    | some a =>
        rw [hco] at hc
        simp only [Option.getD_some] at hc
        subst hc
        cases hto : jsParseIntO bt.totalLength with
        | none => simp [jDivP, jMul100, jsOrZeroNum]
        | some b =>
            rw [hto] at ht
            simp only [Option.getD_some] at ht
            subst ht
            simp [jDivP, jMul100, jsOrZeroNum]

/-- C10 witness: the amended theorem applied to the concrete entry bW10
whose completed count parses to 0 and whose total length is missing. -/
theorem C10_witness :
    progressOf bW10.completedLength bW10.totalLength = JNum.num 0 ∧
    (newTaskOf bW10 0).seeds = none := by
  have h := C10_numeric tAbc bW10 0 none
  exact ⟨h.2.2.2.2.2.2.2.2 (by decide) (by decide), h.2.2.2.2.2.1⟩

end CloudLeecher
